import Mathlib

/-!
Shallow embedding, in Lean 4, of felupe's constitutive evaluation core and the
linear-form integration helper:

* `felupe/constitution/df_da_.py` — `Composite`, `InvariantBased`,
  `PrincipalStretchBased` (memoized `update`, invariant/stretch based stress
  and elasticity with conditional term accumulation and the
  degenerate-eigenvalue perturbation);
* `src/felupe/constitution/_base.py` — `ConstitutiveMaterial.__and__` and
  `CompositeMaterial` (merged parameter mappings, per-field sums);
* `src/felupe/constitution/small_strain/_material_strain.py` —
  `MaterialStrain.extract` / `gradient` / `hessian` (state-vector packing and
  the minor-symmetrization of the user tangent);
* `src/felupe/assembly/expression/_linear.py` — `LinearForm.integrate`
  (serial loop vs. the threaded variant writing disjoint slots).

Conventions of the embedding.  A batched second-order tensor (a 3×3 matrix
replicated over the quadrature-point/element axes) is a function
`Fin 3 → Fin 3 → P → ℚ` where `P` stands for the flattened trailing batch
axes; machine floats are embedded as rationals.  NumPy's `np.all(· == ·)`
tests become decidable universal statements over the finite batch type.
Python attributes that may not have been assigned yet (`self.invariants`,
`self.stretches`, …) are `Option`-valued: `none` models the `AttributeError`
raised when the attribute is read before any assignment.  The user-supplied
energy functions (`self.umat`) and the external tensor primitives the spec
declares "assumed correct and supplied" (`eigh`, `np.sqrt`) are parameters of
the embedding.  Each material state carries `umatCalls`, the number of times
the user energy function has been invoked — the counting wrapper the spec's
idempotence property asks for.
-/

/-- A batched second-order tensor: a 3×3 matrix over the batch axes `P`
(shape 3×3×P in NumPy terms). -/
abbrev Tens (P : Type) := Fin 3 → Fin 3 → P → ℚ

/-- A batched fourth-order tensor (shape 3×3×3×3×P). -/
abbrev T4B (P : Type) := Fin 3 → Fin 3 → Fin 3 → Fin 3 → P → ℚ

/-- `identity(b)`: the batched 3×3 identity. -/
def identB (P : Type) : Tens P := fun i j _ => if i = j then 1 else 0

/-- The all-zero batched tensor (`np.zeros_like`). -/
def zeroTens (P : Type) : Tens P := fun _ _ _ => 0

/-- `trace(b)`, batched. -/
def traceB {P : Type} (b : Tens P) : P → ℚ := fun p => b 0 0 p + b 1 1 p + b 2 2 p

/-- `dot(a, b)`: the batched matrix product. -/
def dotB {P : Type} (a b : Tens P) : Tens P :=
  fun i j p => a i 0 p * b 0 j p + a i 1 p * b 1 j p + a i 2 p * b 2 j p

/-- `det(b)`: the batched 3×3 determinant. -/
def detB {P : Type} (b : Tens P) : P → ℚ := fun p =>
  b 0 0 p * (b 1 1 p * b 2 2 p - b 1 2 p * b 2 1 p)
    - b 0 1 p * (b 1 0 p * b 2 2 p - b 1 2 p * b 2 0 p)
    + b 0 2 p * (b 1 0 p * b 2 1 p - b 1 1 p * b 2 0 p)

/-- `dya(A, B)`: the batched dyadic product, `(A ⊗ B)ᵢⱼₖₗ = Aᵢⱼ Bₖₗ`. -/
def dyaB {P : Type} (A B : Tens P) : T4B P := fun i j k l p => A i j p * B k l p

/-- `cdya(A, B)`: the batched symmetric-crossed dyadic product,
`(A ⊗s B)ᵢⱼₖₗ = (Aᵢₖ Bⱼₗ + Aᵢₗ Bⱼₖ) / 2`. -/
def cdyaB {P : Type} (A B : Tens P) : T4B P :=
  fun i j k l p => (A i k p * B j l p + A i l p * B j k p) / 2

/-- The guard `np.all(b == self.b)` of `InvariantBased.update` and
`PrincipalStretchBased.update`.  `self.b` is initialized to the scalar `0` in
`__init__` (modelled as `none`), so against that sentinel the comparison
broadcasts and tests every entry of `b` against zero. -/
def sentinelMatches {P : Type} [Fintype P] (b : Tens P) : Option (Tens P) → Bool
  | none => decide (∀ i j p, b i j p = 0)
  | some c => decide (∀ i j p, b i j p = c i j p)

/-! ## `InvariantBased` (df_da_.py lines 77-163) -/

/-- The batched principal invariants `(I1, I2, I3)` as a triple. -/
abbrev InvariantsB (P : Type) := (P → ℚ) × (P → ℚ) × (P → ℚ)

/-- A user energy function for `InvariantBased`: from the invariants it
returns the first derivatives `W_a = (W1, W2, W3)` and the second-derivative
matrix `W_ab`. -/
abbrev UmatInv (P : Type) := InvariantsB P → InvariantsB P × (Fin 3 → Fin 3 → P → ℚ)

/-- The attributes `self.invariants`, `self.W_a`, `self.W_ab` set together by
the else-branch of `InvariantBased.update`. -/
structure InvariantBasedData (P : Type) where
  invariants : InvariantsB P
  W_a : InvariantsB P
  W_ab : Fin 3 → Fin 3 → P → ℚ

/-- The mutable state of an `InvariantBased` instance: the cache field
`self.b` (`none` = the scalar sentinel `0` from `__init__`, which the source
never overwrites), the optional computed data, and the number of `self.umat`
invocations. -/
structure InvariantBasedState (P : Type) where
  bCache : Option (Tens P)
  data : Option (InvariantBasedData P)
  umatCalls : ℕ

/-- `InvariantBased.__init__`: `self.b = 0`, no computed attributes yet. -/
def InvariantBased.init {P : Type} : InvariantBasedState P := ⟨none, none, 0⟩

/-- The line
`np.array([trace(b), (trace(b)**2 - trace(dot(b, b))) / 2, det(b)])` of
`InvariantBased.update`. -/
def invariantsOf {P : Type} (b : Tens P) : InvariantsB P :=
  (traceB b, fun p => (traceB b p ^ 2 - traceB (dotB b b) p) / 2, detB b)

/-- `InvariantBased.update(b)`: when `np.all(b == self.b)` the method does
nothing; otherwise it computes the invariants and calls `self.umat`.  Note
that the source never assigns `self.b = b`, so `bCache` is left unchanged in
both branches — exactly as in the Python code. -/
def InvariantBased.update {P : Type} [Fintype P] (umat : UmatInv P)
    (s : InvariantBasedState P) (b : Tens P) : InvariantBasedState P :=
  if sentinelMatches b s.bCache then s
  else
    let invariants := invariantsOf b
    let w := umat invariants
    { bCache := s.bCache, data := some ⟨invariants, w.1, w.2⟩,
      umatCalls := s.umatCalls + 1 }

/-- The accumulation of `InvariantBased.stress`: starting from
`tau = np.zeros_like(b)`, add `tau += 2*W1*b`, `tau += 2*W2*(I1*b - b·b)`,
`tau += 2*W3*I3*I`, each only when its coefficient is not identically zero
across the batch. -/
def stressAccum {P : Type} [Fintype P] (b : Tens P) (I1 I3 W1 W2 W3 : P → ℚ) :
    Tens P :=
  let tau0 : Tens P := fun _ _ _ => 0
  let tau1 : Tens P :=
    if ¬ (∀ p, W1 p = 0) then (fun i j p => tau0 i j p + 2 * W1 p * b i j p) else tau0
  let tau2 : Tens P :=
    if ¬ (∀ p, W2 p = 0) then
      (fun i j p => tau1 i j p + 2 * W2 p * (I1 p * b i j p - dotB b b i j p))
    else tau1
  let tau3 : Tens P :=
    if ¬ (∀ p, W3 p = 0) then
      (fun i j p => tau2 i j p + 2 * W3 p * I3 p * identB P i j p)
    else tau2
  tau3

/-- `InvariantBased.stress(b)`: update, then the conditional accumulation
`stressAccum` on the computed attributes.  Reading the computed attributes of
a state that never ran the else-branch of `update` raises `AttributeError`,
modelled by the `none` result. -/
def InvariantBased.stress {P : Type} [Fintype P] (umat : UmatInv P)
    (s : InvariantBasedState P) (b : Tens P) :
    Option (Tens P) × InvariantBasedState P :=
  let s' := InvariantBased.update umat s b
  match s'.data with
  | none => (none, s')
  | some d =>
    (some (stressAccum b d.invariants.1 d.invariants.2.2 d.W_a.1 d.W_a.2.1 d.W_a.2.2),
     s')

/-- `InvariantBased.elasticity(b)`: update, then accumulate the eight
coefficient terms `4*a00*dya(b,b) + ... + 4*b22*cdya(I,I)`, each only when
its coefficient is not identically zero across the batch. -/
def InvariantBased.elasticity {P : Type} [Fintype P] (umat : UmatInv P)
    (s : InvariantBasedState P) (b : Tens P) :
    Option (T4B P) × InvariantBasedState P :=
  let s' := InvariantBased.update umat s b
  match s'.data with
  | none => (none, s')
  | some d =>
    let I := identB P
    let I1 := d.invariants.1
    let I3 := d.invariants.2.2
    let W2 := d.W_a.2.1
    let W3 := d.W_a.2.2
    let W11 := d.W_ab 0 0
    let W22 := d.W_ab 1 1
    let W33 := d.W_ab 2 2
    let W12 := d.W_ab 0 1
    let W13 := d.W_ab 0 2
    let W23 := d.W_ab 1 2
    let a00 := fun p => W11 p + W2 p + I1 p * W12 p
    let a11 := W22
    let a22 := fun p => W33 p * I3 p ^ 2 + W3 p * I3 p
    let a01 := fun p => -(W12 p + I1 p * W22 p)
    let a02 := fun p => W13 p * I3 p + W23 p * I3 p * I1 p
    let a12 := fun p => -(W23 p * I3 p)
    let b00 := fun p => -(W2 p)
    let b22 := fun p => W3 p * I3 p
    let bb := dotB b b
    let c0 : T4B P := fun _ _ _ _ _ => 0
    let c1 : T4B P :=
      if ¬ (∀ p, a00 p = 0) then
        (fun i j k l p => c0 i j k l p + 4 * a00 p * dyaB b b i j k l p)
      else c0
    let c2 : T4B P :=
      if ¬ (∀ p, a11 p = 0) then
        (fun i j k l p => c1 i j k l p + 4 * a11 p * dyaB bb bb i j k l p)
      else c1
    let c3 : T4B P :=
      if ¬ (∀ p, a22 p = 0) then
        (fun i j k l p => c2 i j k l p + 4 * a22 p * dyaB I I i j k l p)
      else c2
    let c4 : T4B P :=
      if ¬ (∀ p, a01 p = 0) then
        (fun i j k l p =>
          c3 i j k l p + 4 * a01 p * (dyaB b bb i j k l p + dyaB bb b i j k l p))
      else c3
    let c5 : T4B P :=
      if ¬ (∀ p, a02 p = 0) then
        (fun i j k l p =>
          c4 i j k l p + 4 * a02 p * (dyaB b I i j k l p + dyaB I b i j k l p))
      else c4
    let c6 : T4B P :=
      if ¬ (∀ p, a12 p = 0) then
        (fun i j k l p =>
          c5 i j k l p + 4 * a12 p * (dyaB bb I i j k l p + dyaB I bb i j k l p))
      else c5
    let c7 : T4B P :=
      if ¬ (∀ p, b00 p = 0) then
        (fun i j k l p => c6 i j k l p + 4 * b00 p * cdyaB b b i j k l p)
      else c6
    let c8 : T4B P :=
      if ¬ (∀ p, b22 p = 0) then
        (fun i j k l p => c7 i j k l p + 4 * b22 p * cdyaB I I i j k l p)
      else c7
    (some c8, s')

/-- The full mathematical stress sum of the spec,
`τ = 2·W1·b + 2·W2·(I1·b − b·b) + 2·W3·I3·I` with `I1 = tr(b)`,
`I3 = det(b)` and `(W1, W2, W3)` the first derivatives returned by the user
energy function on the invariants of `b` — no term skipped.  This definition
follows the spec's words; the refinement theorem compares it with the
conditional accumulation of `InvariantBased.stress`. -/
def invariantStressFull {P : Type} (umat : UmatInv P) (b : Tens P) : Tens P :=
  let w := (umat (invariantsOf b)).1
  fun i j p =>
    2 * w.1 p * b i j p + 2 * w.2.1 p * (traceB b p * b i j p - dotB b b i j p)
      + 2 * w.2.2 p * detB b p * identB P i j p

/-! ## `PrincipalStretchBased` (df_da_.py lines 166-218) -/

/-- The external batched primitives `PrincipalStretchBased.update` consumes:
`eigh` returns the eigenvalues and the eigenvector matrix (eigenvectors as
columns) of the symmetric input, and `sqrt` is `np.sqrt` — both supplied
collaborators, assumed correct by the spec. -/
structure PSBPrimitives (P : Type) where
  eigh : Tens P → (Fin 3 → P → ℚ) × Tens P
  sqrt : (P → ℚ) → (P → ℚ)

/-- A user energy function for `PrincipalStretchBased`: from the stretches it
returns the first derivatives `W_a` and the second-derivative matrix `W_ab`. -/
abbrev UmatPSB (P : Type) :=
  (Fin 3 → P → ℚ) → (Fin 3 → P → ℚ) × (Fin 3 → Fin 3 → P → ℚ)

/-- The attributes `self.stretches`, `self.bases`, `self.W_a`, `self.W_ab`
set together by the else-branch of `PrincipalStretchBased.update`. -/
structure PSBData (P : Type) where
  stretches : Fin 3 → P → ℚ
  bases : Fin 3 → Tens P
  W_a : Fin 3 → P → ℚ
  W_ab : Fin 3 → Fin 3 → P → ℚ

/-- The mutable state of a `PrincipalStretchBased` instance.  As in
`InvariantBasedState`, `bCache` starts as the scalar sentinel (`none`) and the
source never overwrites it. -/
structure PrincipalStretchBasedState (P : Type) where
  bCache : Option (Tens P)
  data : Option (PSBData P)
  umatCalls : ℕ
  tol : ℚ

/-- `PrincipalStretchBased.__init__(umat, tol)`. -/
def PrincipalStretchBased.init {P : Type} (tol : ℚ) : PrincipalStretchBasedState P :=
  ⟨none, none, 0, tol⟩

/-- `PrincipalStretchBased.update(b)`: when `np.all(b == self.b)` do nothing;
otherwise eigen-decompose, take stretches `√wb`, eigenprojections
`Mₐ = Nₐ ⊗ Nₐ`, and call `self.umat` on the stretches.  `self.b` is never
assigned here, as in the source. -/
def PrincipalStretchBased.update {P : Type} [Fintype P] (prim : PSBPrimitives P)
    (umat : UmatPSB P) (s : PrincipalStretchBasedState P) (b : Tens P) :
    PrincipalStretchBasedState P :=
  if sentinelMatches b s.bCache then s
  else
    let wv := prim.eigh b
    let stretches : Fin 3 → P → ℚ := fun a => prim.sqrt (wv.1 a)
    let bases : Fin 3 → Tens P := fun a => fun i j p => wv.2 i a p * wv.2 j a p
    let w := umat stretches
    { s with data := some ⟨stretches, bases, w.1, w.2⟩, umatCalls := s.umatCalls + 1 }

/-- `PrincipalStretchBased.stress(b)`: update, then `Σₐ Wₐ · λₐ · Mₐ`. -/
def PrincipalStretchBased.stress {P : Type} [Fintype P] (prim : PSBPrimitives P)
    (umat : UmatPSB P) (s : PrincipalStretchBasedState P) (b : Tens P) :
    Option (Tens P) × PrincipalStretchBasedState P :=
  let s' := PrincipalStretchBased.update prim umat s b
  match s'.data with
  | none => (none, s')
  | some d =>
    (some (fun i j p => ∑ a : Fin 3, d.W_a a p * d.stretches a p * d.bases a i j p), s')

/-- The pointwise degenerate-eigenvalue perturbation
`la[abs(la - lb) < self.tol] += self.tol` of
`PrincipalStretchBased.elasticity`, at one batch point. -/
def pstep (tol la lb : ℚ) : ℚ := if abs (la - lb) < tol then la + tol else la

/-- The batched perturbation: `pstep` applied at every batch point (the mask
`abs(la - lb) < tol` is elementwise). -/
def pstepB {P : Type} (tol : ℚ) (la lb : P → ℚ) : P → ℚ :=
  fun p => pstep tol (la p) (lb p)

/-- The successive values taken by `self.stretches` during the double loop of
`PrincipalStretchBased.elasticity`.  The loop visits `(a, b)` in row order
skipping `a = b`, and mutates `self.stretches[a]` in place before forming each
denominator; `psbStr01` is `stretches[0]` after the `(a=0, b=1)` step,
`psbStr02` after `(a=0, b=2)`, and so on. -/
def psbStr01 {P : Type} (tol : ℚ) (s : Fin 3 → P → ℚ) : P → ℚ := pstepB tol (s 0) (s 1)

/-- `stretches[0]` after the `(a=0, b=2)` perturbation step. -/
def psbStr02 {P : Type} (tol : ℚ) (s : Fin 3 → P → ℚ) : P → ℚ :=
  pstepB tol (psbStr01 tol s) (s 2)

/-- `stretches[1]` after the `(a=1, b=0)` perturbation step (reads the already
perturbed `stretches[0]`). -/
def psbStr10 {P : Type} (tol : ℚ) (s : Fin 3 → P → ℚ) : P → ℚ :=
  pstepB tol (s 1) (psbStr02 tol s)

/-- `stretches[1]` after the `(a=1, b=2)` perturbation step. -/
def psbStr12 {P : Type} (tol : ℚ) (s : Fin 3 → P → ℚ) : P → ℚ :=
  pstepB tol (psbStr10 tol s) (s 2)

/-- `stretches[2]` after the `(a=2, b=0)` perturbation step. -/
def psbStr20 {P : Type} (tol : ℚ) (s : Fin 3 → P → ℚ) : P → ℚ :=
  pstepB tol (s 2) (psbStr02 tol s)

/-- `stretches[2]` after the `(a=2, b=1)` perturbation step. -/
def psbStr21 {P : Type} (tol : ℚ) (s : Fin 3 → P → ℚ) : P → ℚ :=
  pstepB tol (psbStr20 tol s) (psbStr12 tol s)

/-- The six denominators `la**2 - lb**2` formed by
`PrincipalStretchBased.elasticity`, in loop order, each taken right after its
perturbation step, as batched scalars. -/
def elasticityDenoms {P : Type} (tol : ℚ) (s : Fin 3 → P → ℚ) : List (P → ℚ) :=
  [fun p => psbStr01 tol s p ^ 2 - s 1 p ^ 2,
   fun p => psbStr02 tol s p ^ 2 - s 2 p ^ 2,
   fun p => psbStr10 tol s p ^ 2 - psbStr02 tol s p ^ 2,
   fun p => psbStr12 tol s p ^ 2 - s 2 p ^ 2,
   fun p => psbStr20 tol s p ^ 2 - psbStr02 tol s p ^ 2,
   fun p => psbStr21 tol s p ^ 2 - psbStr12 tol s p ^ 2]

/-- The elasticity tensor built by the double loop of
`PrincipalStretchBased.elasticity`, with the in-place perturbation of
`self.stretches` unrolled (the `psbStr..` values).  The `-Wₐ/λₐ` terms use the
stretch current at the head of each outer iteration (still unperturbed there);
each off-diagonal term uses the stretches current right after its perturbation
step. -/
def psbElasticityCore {P : Type} (tol : ℚ) (d : PSBData P) : T4B P :=
  let s := d.stretches
  let W := d.W_a
  let M := d.bases
  let G : Fin 3 → Fin 3 → T4B P := fun a b =>
    fun i j k l p => cdyaB (M a) (M b) i j k l p + cdyaB (M b) (M a) i j k l p
  fun i j k l p =>
    (-(W 0 p / s 0 p) * dyaB (M 0) (M 0) i j k l p
      - W 1 p / s 1 p * dyaB (M 1) (M 1) i j k l p
      - W 2 p / s 2 p * dyaB (M 2) (M 2) i j k l p)
    + (∑ a : Fin 3, ∑ b : Fin 3, d.W_ab a b p * dyaB (M a) (M b) i j k l p)
    + (W 0 p * psbStr01 tol s p - W 1 p * s 1 p)
        / (psbStr01 tol s p ^ 2 - s 1 p ^ 2) * G 0 1 i j k l p
    + (W 0 p * psbStr02 tol s p - W 2 p * s 2 p)
        / (psbStr02 tol s p ^ 2 - s 2 p ^ 2) * G 0 2 i j k l p
    + (W 1 p * psbStr10 tol s p - W 0 p * psbStr02 tol s p)
        / (psbStr10 tol s p ^ 2 - psbStr02 tol s p ^ 2) * G 1 0 i j k l p
    + (W 1 p * psbStr12 tol s p - W 2 p * s 2 p)
        / (psbStr12 tol s p ^ 2 - s 2 p ^ 2) * G 1 2 i j k l p
    + (W 2 p * psbStr20 tol s p - W 0 p * psbStr02 tol s p)
        / (psbStr20 tol s p ^ 2 - psbStr02 tol s p ^ 2) * G 2 0 i j k l p
    + (W 2 p * psbStr21 tol s p - W 1 p * psbStr12 tol s p)
        / (psbStr21 tol s p ^ 2 - psbStr12 tol s p ^ 2) * G 2 1 i j k l p

/-- `PrincipalStretchBased.elasticity(b)`: update, then the double loop.  The
in-place mutation of `self.stretches` persists, so the returned state carries
the perturbed stretches. -/
def PrincipalStretchBased.elasticity {P : Type} [Fintype P] (prim : PSBPrimitives P)
    (umat : UmatPSB P) (s : PrincipalStretchBasedState P) (b : Tens P) :
    Option (T4B P) × PrincipalStretchBasedState P :=
  let s' := PrincipalStretchBased.update prim umat s b
  match s'.data with
  | none => (none, s')
  | some d =>
    let final : Fin 3 → P → ℚ := fun a =>
      match a with
      | 0 => psbStr02 s'.tol d.stretches
      | 1 => psbStr12 s'.tol d.stretches
      | 2 => psbStr21 s'.tol d.stretches
    (some (psbElasticityCore s'.tol d),
     { s' with data := some { d with stretches := final } })

/-! ## `MaterialStrain` (_material_strain.py) -/

/-- A single (unbatched) 3×3 tensor; `MaterialStrain` defaults to `dim = 3`
and the embedding fixes that dimension.  The batch axes are dropped here
because every operation of `extract`/`gradient`/`hessian` acts identically at
each batch point. -/
abbrev Mat3 := Fin 3 → Fin 3 → ℚ

/-- An (unbatched) fourth-order tangent tensor. -/
abbrev T4 := Fin 3 → Fin 3 → Fin 3 → Fin 3 → ℚ

/-- `identity(dxdX)` for the 3×3 case. -/
def identity3 : Mat3 := fun i j => if i = j then 1 else 0

/-- `sym(dudx)`: the symmetric part of a tensor. -/
def sym3 (M : Mat3) : Mat3 := fun i j => (M i j + M j i) / 2

/-- Row-major flattening of a 3×3 tensor, `reshape(-1)` of a `(3, 3)` array. -/
def flat3 (M : Mat3) : List ℚ :=
  [M 0 0, M 0 1, M 0 2, M 1 0, M 1 1, M 1 2, M 2 0, M 2 1, M 2 2]

/-- Row-major unflattening, `reshape(3, 3)` of a `(9,)` array. -/
def unflat3 (l : List ℚ) : Mat3 := fun i j => l.getD (3 * i.val + j.val) 0

/-- `np.split(v, np.cumsum(sizes))` restricted to the leading segments: take
the declared sizes one after the other and return the segments together with
the remainder of the vector. -/
def splitSizes : List ℕ → List ℚ → List (List ℚ) × List ℚ
  | [], v => ([], v)
  | n :: ns, v =>
    let r := splitSizes ns (v.drop n)
    (v.take n :: r.1, r.2)

/-- A user material function for `MaterialStrain`:
`material(dstrain, strain_old, stress_old, statevars_old, **kwargs)` returning
`(dsde, stress_new, statevars_new)`.  State variables are carried as flat
per-variable arrays (NumPy's `reshape`/`ravel` pair only reinterprets the
layout and preserves the values). -/
abbrev MaterialFun := Mat3 → Mat3 → Mat3 → List (List ℚ) → T4 × Mat3 × List (List ℚ)

/-- `MaterialStrain.extract(x)` with `x = [dxdX, statevars]`: compute
`strain = sym(dxdX - 1)`, split the flat state vector at the precomputed
offsets (the cumulative sums of the declared sizes) into the declared state
variables, the previous strain (9 entries) and the previous stress (the
rest), and form `dstrain = strain - strain_old`.  Returns
`(strain_old, dstrain, stress_old, statevars_old)` in source order. -/
def MaterialStrain.extract (sizes : List ℕ) (dxdX : Mat3) (statevars : List ℚ) :
    Mat3 × Mat3 × Mat3 × List (List ℚ) :=
  let strain := sym3 (dxdX - identity3)
  let split := splitSizes sizes statevars
  let strain_old := unflat3 (split.2.take 9)
  let stress_old := unflat3 (split.2.drop 9)
  (strain_old, strain - strain_old, stress_old, split.1)

/-- The flat state-vector layout produced by `MaterialStrain.gradient`:
`np.concatenate([*[ravel(sv) for sv in statevars], strain_1d, stress_1d])`. -/
def packState (svs : List (List ℚ)) (strain stress : Mat3) : List ℚ :=
  svs.flatten ++ flat3 strain ++ flat3 stress

/-- `MaterialStrain.gradient(x)`: extract, invoke the user function, and
repack `[*statevars_new, strain_new, stress_new]` with the same offsets used
by `extract`.  Returns `[stress_new, statevars_new]`. -/
def MaterialStrain.gradient (material : MaterialFun) (sizes : List ℕ)
    (dxdX : Mat3) (statevars : List ℚ) : Mat3 × List ℚ :=
  let e := MaterialStrain.extract sizes dxdX statevars
  let r := material e.2.1 e.1 e.2.2.1 e.2.2.2
  (r.2.1, packState r.2.2 (e.1 + e.2.1) r.2.1)

/-- The raw fourth-order tangent the user function returns inside
`MaterialStrain.hessian`, before symmetrization. -/
def MaterialStrain.rawTangent (material : MaterialFun) (sizes : List ℕ)
    (dxdX : Mat3) (statevars : List ℚ) : T4 :=
  let e := MaterialStrain.extract sizes dxdX statevars
  (material e.2.1 e.1 e.2.2.1 e.2.2.2).1

/-- The minor symmetrization of `MaterialStrain.hessian`: the average of the
tensor with its three minor-index-pair-swapped variants
`(dsde + dsdeᵀ(ij) + dsdeᵀ(kl) + dsdeᵀ(ij)(kl)) / 4`. -/
def minorSym (T : T4) : T4 :=
  fun i j k l => (T i j k l + T j i k l + T i j l k + T j i l k) / 4

/-- `MaterialStrain.hessian(x)`: extract, invoke the user function with
`tangent=True`, and minor-symmetrize the returned tangent. -/
def MaterialStrain.hessian (material : MaterialFun) (sizes : List ℕ)
    (dxdX : Mat3) (statevars : List ℚ) : T4 :=
  minorSym (MaterialStrain.rawTangent material sizes dxdX statevars)

/-! ## `ConstitutiveMaterial` / `CompositeMaterial` (_base.py lines 226-277) -/

/-- A constitutive material as `CompositeMaterial` consumes it: list-valued
`gradient` and `hessian` over a kinematic descriptor `x : List K` (fields plus
a trailing state-variable entry), per-field results as batched arrays over
`V`, and a named parameter mapping `kwargs`. -/
structure CMaterial (K V : Type) where
  gradient : List K → List (V → ℚ)
  hessian : List K → List (V → ℚ)
  kwargs : String → Option ℚ

/-- The zero field, the out-of-range default for list indexing. -/
def zeroField {V : Type} : V → ℚ := fun _ => 0

/-- Python's `{**d1, **d2}` on parameter mappings: a key found in `d2`
overrides the value from `d1`. -/
def pyMergeDicts (d1 d2 : String → Option ℚ) : String → Option ℚ :=
  fun k => match d2 k with
  | some v => some v
  | none => d1 k

/-- `CompositeMaterial.__init__(material, other_material)` line
`self.kwargs = {**other_material.kwargs, **material.kwargs}`: the merge starts
from the second (later-declared) material's parameters and then lets the
first material's parameters override. -/
def CompositeMaterial.kwargs {K V : Type} (material other_material : CMaterial K V) :
    String → Option ℚ :=
  pyMergeDicts other_material.kwargs material.kwargs

/-- `CompositeMaterial.gradient(x)`: per-field sums of the two materials'
gradients over `i < nfields = len(x) - 1`, with the updated state variables
taken from the first material only (`gradients[0][-1]`). -/
def CompositeMaterial.gradient {K V : Type} (material other_material : CMaterial K V)
    (x : List K) : List (V → ℚ) :=
  let gradients := [material.gradient x, other_material.gradient x]
  let nfields := x.length - 1
  ((List.range nfields).map fun i =>
    fun v => (gradients.map fun g => g.getD i zeroField v).sum) ++
  [(material.gradient x).getLastD zeroField]

/-- `CompositeMaterial.hessian(x)`: per-field sums of the two materials'
hessians over `i < nfields = len(x) - 1`. -/
def CompositeMaterial.hessian {K V : Type} (material other_material : CMaterial K V)
    (x : List K) : List (V → ℚ) :=
  let hessians := [material.hessian x, other_material.hessian x]
  (List.range (x.length - 1)).map fun i =>
    fun v => (hessians.map fun h => h.getD i zeroField v).sum

/-! ## `Composite` (df_da_.py lines 52-62) -/

/-- A material as the list-based `Composite` of `df_da_.py` consumes it:
plain `stress` and `elasticity` maps over a shared kinematic input `X`. -/
structure DfDaMaterial (X P : Type) where
  stress : X → Tens P
  elasticity : X → T4B P

/-- `Composite.stress(*args)`: `np.sum([m.stress(*args) for m in materials], 0)`,
the elementwise sum of the sub-materials' stresses. -/
def Composite.stress {X P : Type} (materials : List (DfDaMaterial X P)) (x : X) :
    Tens P :=
  fun i j p => (materials.map fun m => m.stress x i j p).sum

/-- `Composite.elasticity(*args)`: the elementwise sum of the sub-materials'
elasticity tensors. -/
def Composite.elasticity {X P : Type} (materials : List (DfDaMaterial X P)) (x : X) :
    T4B P :=
  fun i j k l p => (materials.map fun m => m.elasticity x i j k l p).sum

/-! ## `LinearForm.integrate` (_linear.py lines 51-104) -/

/-- The fixed data `LinearForm.integrate` reads: the basis array `v` (rows
`v[a]` over trailing axes `R`), the differential volumes `dx`, and the
user weakform, whose result carries the quadrature axis `G` and the element
axis `E` (the trailing shape of `v`). -/
structure LinearFormCtx (A R G E : Type) (dim : ℕ) where
  v : A → R → ℚ
  dx : G → E → ℚ
  weakform : (Fin dim → R → ℚ) → G → E → ℚ

/-- Row `i` of `np.eye(dim)`: the `i`-th unit vector. -/
def vone (dim : ℕ) (i : Fin dim) : Fin dim → ℚ := fun j => if j = i then 1 else 0

/-- `np.tensordot(u, w, axes=0)`: the outer product prepending the axis of
`u`. -/
def tensordot0 {R : Type} {dim : ℕ} (u : Fin dim → ℚ) (w : R → ℚ) :
    Fin dim → R → ℚ :=
  fun j r => u j * w r

/-- The value written into `values[a, i]` by both the serial loop and the
threaded `contribution` closure: `weakform(V, ...) * dx` with
`V = tensordot(vone[i], v[a], axes=0)`. -/
def LinearForm.slotValue {A R G E : Type} {dim : ℕ} (c : LinearFormCtx A R G E dim)
    (a : A) (i : Fin dim) : G → E → ℚ :=
  fun g e => c.weakform (tensordot0 (vone dim i) (c.v a)) g e * c.dx g e

/-- The `values` array after the serial double loop: every slot holds its
`slotValue`. -/
def LinearForm.serialValues {A R G E : Type} {dim : ℕ}
    (c : LinearFormCtx A R G E dim) : A → Fin dim → G → E → ℚ :=
  fun a i => LinearForm.slotValue c a i

/-- One threaded `contribution` per pair, executed in the order of the list:
each write fills exactly its own slot `values[a, i]`.  The list argument is
the order in which the scheduler happens to run the threads. -/
def LinearForm.writeSlots {A R G E : Type} {dim : ℕ} [DecidableEq A]
    (c : LinearFormCtx A R G E dim) :
    List (A × Fin dim) → (A → Fin dim → G → E → ℚ) → A → Fin dim → G → E → ℚ
  | [], m => m
  | q :: qs, m =>
    LinearForm.writeSlots c qs
      (fun a i => if a = q.1 ∧ i = q.2 then LinearForm.slotValue c q.1 q.2 else m a i)

/-- The `values` array after the threaded branch ran its writes in the given
order, starting from `np.zeros`. -/
def LinearForm.parallelValues {A R G E : Type} {dim : ℕ} [DecidableEq A]
    (c : LinearFormCtx A R G E dim) (order : List (A × Fin dim)) :
    A → Fin dim → G → E → ℚ :=
  LinearForm.writeSlots c order (fun _ _ _ _ => 0)

/-- The final reduction `values.sum(-2)`: the sum over the quadrature axis,
shared by the serial and the threaded branch. -/
def LinearForm.reduceGauss {A G E : Type} {dim : ℕ} [Fintype G]
    (values : A → Fin dim → G → E → ℚ) : A → Fin dim → E → ℚ :=
  fun a i e => ∑ g, values a i g e

/-- `LinearForm.integrate(..., parallel=False)`. -/
def LinearForm.integrateSerial {A R G E : Type} {dim : ℕ} [Fintype G]
    (c : LinearFormCtx A R G E dim) : A → Fin dim → E → ℚ :=
  LinearForm.reduceGauss (LinearForm.serialValues c)

/-- `LinearForm.integrate(..., parallel=True)`, for the given thread
execution order. -/
def LinearForm.integrateParallel {A R G E : Type} {dim : ℕ} [Fintype G] [DecidableEq A]
    (c : LinearFormCtx A R G E dim) (order : List (A × Fin dim)) :
    A → Fin dim → E → ℚ :=
  LinearForm.reduceGauss (LinearForm.parallelValues c order)

/-! ## Concrete instances for evaluations at specific inputs -/

/-- A single-point batch. -/
abbrev OneP := Fin 1

/-- A concrete user energy function with `W1 = 1`, `W2 = W3 = 0` (a
neo-Hooke-like law) used for evaluating the invariant-based material at a
concrete input. -/
def umatInvConst : UmatInv OneP :=
  fun _ => ((fun _ => 1, fun _ => 0, fun _ => 0), fun _ _ _ => 0)

/-- A concrete user energy function for the principal-stretch material. -/
def umatPSBConst : UmatPSB OneP := fun _ => (fun _ _ => 1, fun _ _ _ => 0)

/-- Concrete external primitives for the principal-stretch material: `eigh`
returning unit eigenvalues and the identity eigenvector matrix (exact for the
identity input), `sqrt` the identity on unit fields. -/
def psbPrimConst : PSBPrimitives OneP :=
  ⟨fun _ => (fun _ _ => 1, identB OneP), fun w => w⟩

/-- The state of a fresh `InvariantBased` material after `stress(b)` followed
by `elasticity(b)` with the bit-identical left Cauchy-Green tensor
`b = identity` — the scenario of the memoization property. -/
def invRunTwice : InvariantBasedState OneP :=
  (InvariantBased.elasticity umatInvConst
    (InvariantBased.stress umatInvConst InvariantBased.init (identB OneP)).2
    (identB OneP)).2

/-- The state of a fresh `PrincipalStretchBased` material after `stress(b)`
followed by `elasticity(b)` with the bit-identical `b = identity`. -/
def psbRunTwice : PrincipalStretchBasedState OneP :=
  (PrincipalStretchBased.elasticity psbPrimConst umatPSBConst
    (PrincipalStretchBased.stress psbPrimConst umatPSBConst
      (PrincipalStretchBased.init 1) (identB OneP)).2
    (identB OneP)).2

/-- A concrete material `A` with parameter `mu = 1`. -/
def cmatMuOne : CMaterial Unit Unit :=
  ⟨fun _ => [], fun _ => [], fun k => if k = "mu" then some 1 else none⟩

/-- A concrete material `B` with parameter `mu = 2`. -/
def cmatMuTwo : CMaterial Unit Unit :=
  ⟨fun _ => [], fun _ => [], fun k => if k = "mu" then some 2 else none⟩

/-- A user tangent with a single nonzero component `T[0,0,1,1] = 1`: it is
minor-symmetric already, but not major-symmetric. -/
def asymTangent : T4 := fun i j k l =>
  if i = 0 ∧ j = 0 ∧ k = 1 ∧ l = 1 then 1 else 0

/-- A user material function returning `asymTangent` whatever the input. -/
def asymMaterial : MaterialFun := fun _ _ _ _ => (asymTangent, fun _ _ => 0, [])

/-- A user material function whose tangent `I ⊗ I` (written pointwise) is
major-symmetric. -/
def dyaMaterial : MaterialFun :=
  fun _ _ _ _ => (fun i j k l => if i = j ∧ k = l then 1 else 0, fun _ _ => 0, [])

/-- A concrete 18-entry state vector (no declared state variables, old strain
and old stress both zero). -/
def zeros18 : List ℚ := List.replicate 18 0

/-- Concrete state-variable values for the round-trip evaluation: one
declared variable of size 2. -/
def svsC7 : List (List ℚ) := [[5, 7]]

/-- A concrete old-strain tensor for the round-trip evaluation. -/
def strainC7 : Mat3 := fun i j => (i.val : ℚ) + 3 * j.val

/-- A concrete old-stress tensor for the round-trip evaluation. -/
def stressC7 : Mat3 := fun i j => 10 * (i.val : ℚ) - j.val

/-- A concrete deformation gradient for the round-trip evaluation. -/
def dxdXC7 : Mat3 := fun i j => if i = j then 2 else 1

/-- A concrete `df_da_`-style material with constant unit stress and
elasticity. -/
def dfdaOne : DfDaMaterial Unit OneP :=
  ⟨fun _ _ _ _ => 1, fun _ _ _ _ _ _ => 1⟩

/-- A concrete `df_da_`-style material with constant stress and elasticity 2. -/
def dfdaTwo : DfDaMaterial Unit OneP :=
  ⟨fun _ _ _ _ => 2, fun _ _ _ _ _ _ => 2⟩

/-- A concrete list-valued material (one field plus state variables) for the
composite per-field sums. -/
def cmatListA : CMaterial Unit Unit :=
  ⟨fun _ => [fun _ => 3, fun _ => 30], fun _ => [fun _ => 5], fun _ => none⟩

/-- A second concrete list-valued material for the composite per-field sums. -/
def cmatListB : CMaterial Unit Unit :=
  ⟨fun _ => [fun _ => 4, fun _ => 40], fun _ => [fun _ => 6], fun _ => none⟩

/-- A concrete linear-form context with one basis function, one component,
one quadrature point and one element. -/
def lfCtx : LinearFormCtx (Fin 1) (Fin 1) (Fin 1) (Fin 1) 1 :=
  ⟨fun _ _ => 1, fun _ _ => 1, fun V g _ => V 0 g⟩

/-- Fully coincident unit stretches — the exactly degenerate case. -/
def stretchesOnes : Fin 3 → Unit → ℚ := fun _ _ => 1

/-! ## Theorems -/

/-- Claim C1 (code_bug evaluation at the failing input): for a freshly
constructed invariant-based and principal-stretch-based material, calling
`stress(b)` and then `elasticity(b)` with the bit-identical nonzero tensor
`b = identity` invokes the user energy function twice, not once: `update`
never assigns `self.b = b`, so the memoization guard keeps comparing against
the constructor sentinel `0` and never short-circuits a repeated nonzero
input. -/
theorem c1_memoization_never_caches :
    invRunTwice.umatCalls = 2 ∧ psbRunTwice.umatCalls = 2 := by
  constructor <;> rfl

/-- Claim C10: on a freshly constructed invariant-based or
principal-stretch-based material, the very first `stress` or `elasticity`
call with an all-zero tensor `b` finds the guard `np.all(b == self.b)` true
against the scalar sentinel `0`, so `update` skips the computation
(`umatCalls` stays `0`) and the subsequent read of the never-assigned
attributes fails (the `none` result, an `AttributeError` in the source)
instead of returning a tensor. -/
theorem c10_fresh_zero_input_fails (P : Type) [Fintype P] (umat : UmatInv P)
    (prim : PSBPrimitives P) (umatp : UmatPSB P) (tol : ℚ) :
    (InvariantBased.stress umat InvariantBased.init (zeroTens P)).1 = none ∧
    (InvariantBased.stress umat InvariantBased.init (zeroTens P)).2.umatCalls = 0 ∧
    (InvariantBased.elasticity umat InvariantBased.init (zeroTens P)).1 = none ∧
    (PrincipalStretchBased.stress prim umatp (PrincipalStretchBased.init tol)
      (zeroTens P)).1 = none ∧
    (PrincipalStretchBased.stress prim umatp (PrincipalStretchBased.init tol)
      (zeroTens P)).2.umatCalls = 0 ∧
    (PrincipalStretchBased.elasticity prim umatp (PrincipalStretchBased.init tol)
      (zeroTens P)).1 = none := by
  have hg : ∀ i j p, zeroTens P i j p = 0 := fun _ _ _ => rfl
  refine ⟨?_, ?_, ?_, ?_, ?_, ?_⟩ <;>
    simp [InvariantBased.stress, InvariantBased.elasticity, InvariantBased.update,
      InvariantBased.init, PrincipalStretchBased.stress,
      PrincipalStretchBased.elasticity, PrincipalStretchBased.update,
      PrincipalStretchBased.init, sentinelMatches, zeroTens]

/-- Claim C2 (counterexample): merging material `A` (`mu = 1`) with material
`B` (`mu = 2`) via `A & B = CompositeMaterial(A, B)` yields `mu = 1` — the
value of the FIRST material, not of the later-declared `B` as the claim
states. -/
theorem c2_counterexample :
    CompositeMaterial.kwargs cmatMuOne cmatMuTwo "mu" = some 1 ∧
    cmatMuTwo.kwargs "mu" = some 2 ∧
    CompositeMaterial.kwargs cmatMuOne cmatMuTwo "mu" ≠ cmatMuTwo.kwargs "mu" := by
  refine ⟨rfl, rfl, ?_⟩
  decide

/-- Claim C2 (amended): on a key collision the merged parameter mapping of
`CompositeMaterial` holds the value of the FIRST material of `A & B` — the
dictionary merge `{**other_material.kwargs, **material.kwargs}` lets the
first material's entries override, as the class docstring also warns. -/
theorem c2_amended_first_material_wins {K V : Type} (mA mB : CMaterial K V)
    (k : String) (hA : (mA.kwargs k).isSome = true)
    (hB : (mB.kwargs k).isSome = true) :
    CompositeMaterial.kwargs mA mB k = mA.kwargs k := by
  unfold CompositeMaterial.kwargs pyMergeDicts
  cases h : mA.kwargs k with
  | none => rw [h] at hA; simp at hA
  | some v => simp [h]

/-- Claim C2 witness: the amended precedence evaluated on the two concrete
materials with the colliding key. -/
theorem c2_amended_witness :
    (cmatMuOne.kwargs "mu").isSome = true ∧
    (cmatMuTwo.kwargs "mu").isSome = true ∧
    CompositeMaterial.kwargs cmatMuOne cmatMuTwo "mu" = cmatMuOne.kwargs "mu" :=
  ⟨by decide, by decide,
    c2_amended_first_material_wins cmatMuOne cmatMuTwo "mu" (by decide) (by decide)⟩

/-- Claim C3 (counterexample): `MaterialStrain.hessian` does NOT guarantee
major symmetry.  For the user tangent with the single nonzero component
`T[0,0,1,1] = 1` (already minor-symmetric), the symmetrized output still has
component `(0,0,1,1)` equal to `1` but component `(1,1,0,0)` equal to `0`:
swapping the first index pair with the second changes the tensor. -/
theorem c3_counterexample :
    MaterialStrain.hessian asymMaterial [] identity3 zeros18 0 0 1 1 ≠
    MaterialStrain.hessian asymMaterial [] identity3 zeros18 1 1 0 0 := by
  simp [MaterialStrain.hessian, MaterialStrain.rawTangent, minorSym, asymMaterial,
    asymTangent]
  norm_num

/-- Claim C3 (amended): `MaterialStrain.hessian` enforces only minor
symmetry; major symmetry of the returned tangent holds exactly when the raw
user tangent already has it — the minor symmetrization preserves major
symmetry but does not create it. -/
theorem c3_amended_major_symmetry_preserved (material : MaterialFun)
    (sizes : List ℕ) (dxdX : Mat3) (statevars : List ℚ)
    (h : ∀ i j k l, MaterialStrain.rawTangent material sizes dxdX statevars i j k l =
      MaterialStrain.rawTangent material sizes dxdX statevars k l i j) :
    ∀ i j k l, MaterialStrain.hessian material sizes dxdX statevars i j k l =
      MaterialStrain.hessian material sizes dxdX statevars k l i j := by
  intro i j k l
  unfold MaterialStrain.hessian minorSym
  rw [h k l i j, h l k i j, h k l j i, h l k j i]
  ring

/-- Claim C3 witness: the amended statement evaluated on a concrete
major-symmetric user tangent `I ⊗ I`. -/
theorem c3_amended_witness :
    (∀ i j k l, MaterialStrain.rawTangent dyaMaterial [] identity3 zeros18 i j k l =
      MaterialStrain.rawTangent dyaMaterial [] identity3 zeros18 k l i j) ∧
    (∀ i j k l, MaterialStrain.hessian dyaMaterial [] identity3 zeros18 i j k l =
      MaterialStrain.hessian dyaMaterial [] identity3 zeros18 k l i j) :=
  ⟨by decide,
    c3_amended_major_symmetry_preserved dyaMaterial [] identity3 zeros18 (by decide)⟩

/-- Claim C5: the tensor returned by `MaterialStrain.hessian` — the average
of the raw user tangent with its three minor-index-pair-swapped variants —
is minor-symmetric in both index pairs for EVERY user material function and
every input, even when the raw tangent is asymmetric. -/
theorem c5_minor_symmetry (material : MaterialFun) (sizes : List ℕ)
    (dxdX : Mat3) (statevars : List ℚ) (i j k l : Fin 3) :
    MaterialStrain.hessian material sizes dxdX statevars i j k l =
      MaterialStrain.hessian material sizes dxdX statevars j i k l ∧
    MaterialStrain.hessian material sizes dxdX statevars i j k l =
      MaterialStrain.hessian material sizes dxdX statevars i j l k := by
  unfold MaterialStrain.hessian minorSym
  exact ⟨by ring, by ring⟩

/-- Helper: the conditional accumulation of `InvariantBased.stress` equals
the full three-term sum — a term whose coefficient is identically zero across
the batch contributes exactly the zero tensor, so skipping it is exact. -/
theorem stressAccum_eq {P : Type} [Fintype P] (b : Tens P) (I1 I3 W1 W2 W3 : P → ℚ) :
    stressAccum b I1 I3 W1 W2 W3 = fun i j p =>
      2 * W1 p * b i j p + 2 * W2 p * (I1 p * b i j p - dotB b b i j p)
        + 2 * W3 p * I3 p * identB P i j p := by
  by_cases h1 : ∀ p, W1 p = 0 <;> by_cases h2 : ∀ p, W2 p = 0 <;>
      by_cases h3 : ∀ p, W3 p = 0 <;>
    simp [stressAccum, h1, h2, h3]

/-- Claim C4: for every batched tensor `b` (not matching the sentinel, so
that `update` has actually computed) and every user energy function,
`InvariantBased.stress(b)` equals the full sum
`2·W1·b + 2·W2·(I1·b − b·b) + 2·W3·I3·I` with `I1 = tr(b)`, `I3 = det(b)`:
the runtime skipping of identically-zero coefficient terms never changes the
result. -/
theorem c4_stress_full_formula {P : Type} [Fintype P] (umat : UmatInv P)
    (b : Tens P) (h : ¬ ∀ i j p, b i j p = 0) :
    (InvariantBased.stress umat InvariantBased.init b).1 =
      some (invariantStressFull umat b) := by
  have hg : sentinelMatches b (InvariantBased.init (P := P)).bCache = false :=
    decide_eq_false h
  simp only [InvariantBased.stress, InvariantBased.update, hg, Bool.false_eq_true,
    if_false]
  rw [stressAccum_eq]
  rfl

/-- Claim C4 witness: the full-sum equality evaluated at `b = identity` on a
single-point batch with a neo-Hooke-like energy function. -/
theorem c4_stress_full_formula_witness :
    (¬ ∀ i j p, identB OneP i j p = 0) ∧
    (InvariantBased.stress umatInvConst InvariantBased.init (identB OneP)).1 =
      some (invariantStressFull umatInvConst (identB OneP)) :=
  ⟨by decide, c4_stress_full_formula umatInvConst (identB OneP) (by decide)⟩

/-- Helper: one perturbation step of `PrincipalStretchBased.elasticity`.  For
a strictly positive tolerance and strictly positive stretches the denominator
formed right after the step is nonzero, and the perturbed stretch stays
strictly positive. -/
theorem pstep_key (tol x y : ℚ) (ht : 0 < tol) (hx : 0 < x) (hy : 0 < y) :
    pstep tol x y ^ 2 - y ^ 2 ≠ 0 ∧ 0 < pstep tol x y := by
  unfold pstep
  by_cases h : |x - y| < tol
  · rw [if_pos h]
    obtain ⟨hlo, hhi⟩ := abs_lt.mp h
    refine ⟨?_, by linarith⟩
    have hfac : (x + tol) ^ 2 - y ^ 2 = (x + tol - y) * (x + tol + y) := by ring
    rw [hfac]
    exact ne_of_gt (mul_pos (by linarith) (by linarith))
  · rw [if_neg h]
    have hne : x - y ≠ 0 := by
      intro h0
      exact h (by rw [h0, abs_zero]; exact ht)
    refine ⟨?_, hx⟩
    have hfac : x ^ 2 - y ^ 2 = (x - y) * (x + y) := by ring
    rw [hfac]
    exact mul_ne_zero hne (ne_of_gt (by linarith))

/-- Claim C6: with a strictly positive tolerance and strictly positive
stretches, every denominator `la**2 - lb**2` formed by
`PrincipalStretchBased.elasticity` after its degenerate-eigenvalue
perturbation step is nonzero at every batch point — the division is never by
zero, including when two stretches coincide exactly, so the elasticity tensor
stays finite. -/
theorem c6_denominators_nonzero {P : Type} (tol : ℚ) (s : Fin 3 → P → ℚ) (p : P)
    (ht : 0 < tol) (h0 : 0 < s 0 p) (h1 : 0 < s 1 p) (h2 : 0 < s 2 p) :
    ∀ dfun ∈ elasticityDenoms tol s, dfun p ≠ 0 := by
  have k1 := pstep_key tol (s 0 p) (s 1 p) ht h0 h1
  have k2 := pstep_key tol (pstep tol (s 0 p) (s 1 p)) (s 2 p) ht k1.2 h2
  have k3 := pstep_key tol (s 1 p)
    (pstep tol (pstep tol (s 0 p) (s 1 p)) (s 2 p)) ht h1 k2.2
  have k4 := pstep_key tol
    (pstep tol (s 1 p) (pstep tol (pstep tol (s 0 p) (s 1 p)) (s 2 p)))
    (s 2 p) ht k3.2 h2
  have k5 := pstep_key tol (s 2 p)
    (pstep tol (pstep tol (s 0 p) (s 1 p)) (s 2 p)) ht h2 k2.2
  have k6 := pstep_key tol
    (pstep tol (s 2 p) (pstep tol (pstep tol (s 0 p) (s 1 p)) (s 2 p)))
    (pstep tol (pstep tol (s 1 p) (pstep tol (pstep tol (s 0 p) (s 1 p)) (s 2 p)))
      (s 2 p))
    ht k5.2 k4.2
  intro dfun hd
  simp only [elasticityDenoms, List.mem_cons, List.not_mem_nil, or_false] at hd
  rcases hd with rfl | rfl | rfl | rfl | rfl | rfl
  · exact k1.1
  · exact k2.1
  · exact k3.1
  · exact k4.1
  · exact k5.1
  · exact k6.1

/-- Claim C6 witness: the nonzero-denominator guarantee evaluated at the
exactly degenerate input of three coincident unit stretches with tolerance 1. -/
theorem c6_denominators_nonzero_witness :
    (0 : ℚ) < 1 ∧ 0 < stretchesOnes 0 () ∧ 0 < stretchesOnes 1 () ∧
    0 < stretchesOnes 2 () ∧
    ∀ dfun ∈ elasticityDenoms 1 stretchesOnes, dfun () ≠ 0 :=
  ⟨by norm_num, by norm_num [stretchesOnes], by norm_num [stretchesOnes],
   by norm_num [stretchesOnes],
   c6_denominators_nonzero 1 stretchesOnes () (by norm_num)
     (by norm_num [stretchesOnes]) (by norm_num [stretchesOnes])
     (by norm_num [stretchesOnes])⟩

/-- Helper: row-major unflattening inverts row-major flattening of a 3×3
tensor. -/
theorem unflat3_flat3 (M : Mat3) : unflat3 (flat3 M) = M := by
  funext i j
  fin_cases i <;> fin_cases j <;> rfl

/-- Helper: splitting at the declared sizes inverts concatenation of
segments of exactly those sizes. -/
theorem splitSizes_flatten (sizes : List ℕ) (svs : List (List ℚ)) (rest : List ℚ)
    (h : List.Forall₂ (fun (sv : List ℚ) n => sv.length = n) svs sizes) :
    splitSizes sizes (svs.flatten ++ rest) = (svs, rest) := by
  induction h with
  | nil => simp [splitSizes]
  | @cons sv n svs' sizes' h1 h2 ih =>
    simp only [List.flatten_cons, List.append_assoc, splitSizes]
    rw [List.take_left' h1, List.drop_left' h1, ih]

/-- Claim C7: packing and unpacking of the `MaterialStrain` state vector are
mutually inverse.  For every state vector laid out as
`packState` — the concatenation of the raveled declared state variables, the
flattened strain and the flattened stress, which is by definition the layout
`MaterialStrain.gradient` produces — `MaterialStrain.extract` recovers
exactly the original state-variable values, the original strain (as
`strain_old`) and the original stress (as `stress_old`), splitting at the
same precomputed offsets. -/
theorem c7_extract_pack_roundtrip (sizes : List ℕ) (svs : List (List ℚ))
    (strain stress : Mat3) (dxdX : Mat3)
    (h : List.Forall₂ (fun (sv : List ℚ) n => sv.length = n) svs sizes) :
    MaterialStrain.extract sizes dxdX (packState svs strain stress) =
      (strain, sym3 (dxdX - identity3) - strain, stress, svs) := by
  have hsplit := splitSizes_flatten sizes svs (flat3 strain ++ flat3 stress) h
  have htake : (flat3 strain ++ flat3 stress).take 9 = flat3 strain :=
    List.take_left' rfl
  have hdrop : (flat3 strain ++ flat3 stress).drop 9 = flat3 stress :=
    List.drop_left' rfl
  simp only [MaterialStrain.extract, packState, List.append_assoc, hsplit, htake,
    hdrop, unflat3_flat3]

/-- Claim C7 witness: the round trip evaluated on a concrete state vector
with one declared state variable of size two and nonzero strain and stress. -/
theorem c7_extract_pack_roundtrip_witness :
    List.Forall₂ (fun (sv : List ℚ) n => sv.length = n) svsC7 [2] ∧
    MaterialStrain.extract [2] dxdXC7 (packState svsC7 strainC7 stressC7) =
      (strainC7, sym3 (dxdXC7 - identity3) - strainC7, stressC7, svsC7) :=
  ⟨List.Forall₂.cons rfl List.Forall₂.nil,
   c7_extract_pack_roundtrip [2] svsC7 strainC7 stressC7 dxdXC7
     (List.Forall₂.cons rfl List.Forall₂.nil)⟩

/-- Helper: indexing a mapped range inside an appended list. -/
theorem getD_range_map_append {α : Type} (n i : ℕ) (f : ℕ → α) (l2 : List α)
    (d : α) (h : i < n) : (((List.range n).map f) ++ l2).getD i d = f i := by
  have hl : i < ((List.range n).map f).length := by simpa using h
  rw [List.getD_append _ _ _ _ hl, List.getD_eq_getElem _ _ hl]
  simp

/-- Helper: indexing a mapped range. -/
theorem getD_range_map {α : Type} (n i : ℕ) (f : ℕ → α) (d : α) (h : i < n) :
    ((List.range n).map f).getD i d = f i := by
  have hl : i < ((List.range n).map f).length := by simpa using h
  rw [List.getD_eq_getElem _ _ hl]
  simp

/-- Claim C8: composite additivity.  The list-based `Composite` of two
materials has stress and elasticity equal to the elementwise sums of the
sub-materials' stresses and elasticities with no cross terms, and the
two-material `CompositeMaterial` sums its materials' `gradient` and `hessian`
lists field by field over `i < nfields = len(x) - 1`. -/
theorem c8_composite_additivity {X P K V : Type} (A B : DfDaMaterial X P) (x : X)
    (mA mB : CMaterial K V) (y : List K) (i : ℕ) (hi : i < y.length - 1) :
    (∀ i' j' p, Composite.stress [A, B] x i' j' p =
      A.stress x i' j' p + B.stress x i' j' p) ∧
    (∀ i' j' k' l' p, Composite.elasticity [A, B] x i' j' k' l' p =
      A.elasticity x i' j' k' l' p + B.elasticity x i' j' k' l' p) ∧
    (∀ v, (CompositeMaterial.gradient mA mB y).getD i zeroField v =
      (mA.gradient y).getD i zeroField v + (mB.gradient y).getD i zeroField v) ∧
    (∀ v, (CompositeMaterial.hessian mA mB y).getD i zeroField v =
      (mA.hessian y).getD i zeroField v + (mB.hessian y).getD i zeroField v) := by
  refine ⟨fun i' j' p => ?_, fun i' j' k' l' p => ?_, fun v => ?_, fun v => ?_⟩
  · simp [Composite.stress]
  · simp [Composite.elasticity]
  · simp only [CompositeMaterial.gradient]
    rw [getD_range_map_append _ _ _ _ _ hi]
    simp
  · simp only [CompositeMaterial.hessian]
    rw [getD_range_map _ _ _ _ hi]
    simp

/-- Claim C8 witness: additivity evaluated on concrete constant materials and
a two-entry kinematic descriptor (one field plus state variables). -/
theorem c8_composite_additivity_witness :
    (0 < ([(), ()] : List Unit).length - 1) ∧
    ((∀ i' j' p, Composite.stress [dfdaOne, dfdaTwo] () i' j' p =
        dfdaOne.stress () i' j' p + dfdaTwo.stress () i' j' p) ∧
     (∀ i' j' k' l' p, Composite.elasticity [dfdaOne, dfdaTwo] () i' j' k' l' p =
        dfdaOne.elasticity () i' j' k' l' p + dfdaTwo.elasticity () i' j' k' l' p) ∧
     (∀ v, (CompositeMaterial.gradient cmatListA cmatListB [(), ()]).getD 0
          zeroField v =
        (cmatListA.gradient [(), ()]).getD 0 zeroField v +
          (cmatListB.gradient [(), ()]).getD 0 zeroField v) ∧
     (∀ v, (CompositeMaterial.hessian cmatListA cmatListB [(), ()]).getD 0
          zeroField v =
        (cmatListA.hessian [(), ()]).getD 0 zeroField v +
          (cmatListB.hessian [(), ()]).getD 0 zeroField v)) :=
  ⟨by decide,
   c8_composite_additivity dfdaOne dfdaTwo () cmatListA cmatListB [(), ()] 0
     (by decide)⟩

/-- Helper: after a list of slot writes, a slot that was written holds its
`slotValue` and an untouched slot keeps its initial value — the writes of
distinct threads land in disjoint slots. -/
theorem writeSlots_eq {A R G E : Type} {dim : ℕ} [DecidableEq A]
    (c : LinearFormCtx A R G E dim) :
    ∀ (l : List (A × Fin dim)) (m : A → Fin dim → G → E → ℚ) (a : A) (i : Fin dim),
      LinearForm.writeSlots c l m a i =
        if (a, i) ∈ l then LinearForm.slotValue c a i else m a i := by
  intro l
  induction l with
  | nil => intro m a i; simp [LinearForm.writeSlots]
  | cons q qs ih =>
    intro m a i
    simp only [LinearForm.writeSlots]
    rw [ih]
    by_cases hmem : (a, i) ∈ qs
    · simp [hmem]
    · by_cases hq : (a, i) = q
      · have h1 : a = q.1 := by rw [← hq]
        have h2 : i = q.2 := by rw [← hq]
        simp [hmem, hq, h1, h2]
      · have hsplit : ¬ (a = q.1 ∧ i = q.2) := by
          intro hc
          exact hq (Prod.ext hc.1 hc.2)
        simp [hmem, hq, hsplit]

/-- Claim C9: `LinearForm.integrate` with `parallel=True` returns exactly the
values of the serial loop, whatever order the scheduler runs the per-slot
threads in, provided every `(basis-function, component)` pair is executed:
each partition writes its own disjoint output slot with the identical
per-slot computation, and the final sum over the quadrature axis is the same
reduction for both branches. -/
theorem c9_parallel_eq_serial {A R G E : Type} {dim : ℕ} [Fintype G]
    [DecidableEq A] (c : LinearFormCtx A R G E dim) (order : List (A × Fin dim))
    (hcover : ∀ (a : A) (i : Fin dim), (a, i) ∈ order) :
    LinearForm.integrateParallel c order = LinearForm.integrateSerial c := by
  funext a i e
  unfold LinearForm.integrateParallel LinearForm.integrateSerial
    LinearForm.reduceGauss
  refine Finset.sum_congr rfl fun g _ => ?_
  unfold LinearForm.parallelValues LinearForm.serialValues
  rw [writeSlots_eq c order _ a i, if_pos (hcover a i)]

/-- Claim C9 witness: serial/parallel agreement evaluated on a concrete
one-slot context with the full execution order. -/
theorem c9_parallel_eq_serial_witness :
    (∀ (a : Fin 1) (i : Fin 1), (a, i) ∈ [((0 : Fin 1), (0 : Fin 1))]) ∧
    LinearForm.integrateParallel lfCtx [(0, 0)] = LinearForm.integrateSerial lfCtx :=
  ⟨by decide, c9_parallel_eq_serial lfCtx [(0, 0)] (by decide)⟩
